import Mathlib

/-!
Shallow embedding of the WITS trade-data extraction script
(`testfile.py`).  Spreadsheet cells that pandas would hold as floats are
modelled as rationals (`ℚ`); a numeric cell that may fail to parse is an
`Option ℚ` (`none` plays the role of pandas `NaN` before `fillna`), and
the `float("nan")` EUR value is modelled as `none : Option ℚ`.
-/

namespace WITS

/-- Python `str.strip()`: remove leading and trailing whitespace,
modelled on the character list of the string. -/
def strTrim (s : String) : String :=
  String.mk (((s.data.dropWhile Char.isWhitespace).reverse.dropWhile Char.isWhitespace).reverse)

/-- Python `str.lower()` (ASCII case folding, which is all the unit
strings of the data use), modelled on the character list. -/
def strToLower (s : String) : String :=
  String.mk (s.data.map Char.toLower)

/-- One row of a parsed spreadsheet, restricted to the four columns the
script ever reads.  `quantity`/`value1000` are `none` when the cell is not
numeric (pandas `to_numeric(errors="coerce")` would give `NaN`). -/
structure RawRow where
  partner : String
  quantity : Option ℚ
  quantityUnit : String
  value1000 : Option ℚ
deriving DecidableEq

/-- A parsed spreadsheet: the column names present in the sheet plus the
typed content of the four relevant columns for each data row. -/
structure DataFrame where
  columns : List String
  rows : List RawRow
deriving DecidableEq

/-- A row after `_prep_kg_rows`: partner and unit trimmed, the unit known
to be kg, and the numeric columns coerced (unparseable ↦ 0). -/
structure PrepRow where
  partner : String
  quantityUnit : String
  quantity : ℚ
  value1000 : ℚ
deriving DecidableEq

/-- The `ValueError` raised by `_prep_kg_rows`, carrying the missing
columns and the columns actually found. -/
inductive PrepError where
  | missingColumns (missing : List String) (found : List String)
deriving DecidableEq

def requiredColumns : List String :=
  ["Partner", "Quantity", "Quantity Unit", "Trade Value 1000USD"]

/-- `_prep_kg_rows`: check required columns, trim partner and unit,
keep only (case-insensitively) "kg" rows, coerce numerics with 0 default. -/
def prep_kg_rows (df : DataFrame) : Except PrepError (List PrepRow) :=
  let missing := requiredColumns.filter fun c => !(df.columns.contains c)
  if missing.isEmpty then
    let d1 := df.rows.map fun r => { r with partner := strTrim r.partner }
    let d2 := d1.map fun r => { r with quantityUnit := strTrim r.quantityUnit }
    let d3 := d2.filter fun r => strToLower r.quantityUnit == "kg"
    Except.ok (d3.map fun r =>
      { partner := r.partner, quantityUnit := r.quantityUnit,
        quantity := r.quantity.getD 0, value1000 := r.value1000.getD 0 })
  else Except.error (PrepError.missingColumns missing df.columns)

/-- `get_qty_and_value_sums_for_partners`: group the prepared rows by
partner (restricted to `partners`), sum quantity and value, and report
`(0, 0)` for a partner with no rows (absent from the groupby index). -/
def get_qty_and_value_sums_for_partners (df : DataFrame) (partners : List String) :
    Except PrepError (List (String × ℚ × ℚ)) :=
  match prep_kg_rows df with
  | Except.error e => Except.error e
  | Except.ok d =>
    let g := d.filter fun r => partners.contains r.partner
    Except.ok (partners.map fun p =>
      if g.any fun r => r.partner == p then
        (p, ((g.filter fun r => r.partner == p).map PrepRow.quantity).sum,
            ((g.filter fun r => r.partner == p).map PrepRow.value1000).sum)
      else (p, (0 : ℚ), (0 : ℚ)))

/-- `get_rest_of_world_sum`: drop prepared rows whose partner is excluded
and sum the rest without grouping. -/
def get_rest_of_world_sum (df : DataFrame) (exclude_partners : List String) :
    Except PrepError (ℚ × ℚ) :=
  match prep_kg_rows df with
  | Except.error e => Except.error e
  | Except.ok d =>
    let d2 := d.filter fun r => !(exclude_partners.contains r.partner)
    Except.ok ((d2.map PrepRow.quantity).sum, (d2.map PrepRow.value1000).sum)

/-! ### Compiled-in configuration -/

def REGION_LABEL_EU : String := "European Union"

/-- `REPORTERS` dict as an (ordered) association list label ↦ code. -/
def REPORTERS : List (String × String) :=
  [("European Union", "EUN"), ("China", "CHN"), ("Chile", "CHL"), ("Canada", "CAN"),
   ("United States", "USA"), ("Russian Federation", "RUS"), ("Argentina", "ARG")]

def BASE_PARTNERS : List String :=
  ["United States", "China", "Russian Federation", "Canada", "Argentina", "Chile"]

def PARTNERS : List String := BASE_PARTNERS ++ ["World"]

def EU_COUNTRIES : List String :=
  ["Austria", "Belgium", "Bulgaria", "Croatia", "Cyprus", "Czech Republic", "Denmark",
   "Estonia", "Finland", "France", "Germany", "Greece", "Hungary", "Ireland", "Italy",
   "Latvia", "Lithuania", "Luxembourg", "Malta", "Netherlands", "Poland", "Portugal",
   "Romania", "Slovak Republic", "Slovenia", "Spain", "Sweden"]

def YEARS : List Nat := [2020, 2021, 2022, 2023, 2024]

def FLOWS : List String := ["I", "E"]

def PRODUCTS : List String :=
  ["430110", "430120", "430130", "430140", "430150", "430160", "430170", "430180", "430190"]

/-- `USD_TO_EUR` rate table (year ↦ rate). -/
def USD_TO_EUR (year : Nat) : Option ℚ :=
  match year with
  | 2024 => some (924/1000)
  | 2023 => some (924/1000)
  | 2022 => some (951/1000)
  | 2021 => some (846/1000)
  | 2020 => some (877/1000)
  | _ => none

/-- `EXCLUDE_FOR_ROW = set(BASE_PARTNERS + [REGION_LABEL_EU, "World"] + EU_COUNTRIES)`
(membership in the Python set is membership in this list). -/
def EXCLUDE_FOR_ROW : List String :=
  BASE_PARTNERS ++ [REGION_LABEL_EU, "World"] ++ EU_COUNTRIES

def inverse_flow (flow : String) : String := if flow = "I" then "E" else "I"

def flow_label (flow : String) : String := if flow = "I" then "Import" else "Export"

/-! ### Accumulators and main aggregation loop -/

/-- A key of the accumulator dicts: `(reporter, partner, year, flow)`. -/
structure Key where
  reporter : String
  partner : String
  year : Nat
  flow : String
deriving DecidableEq

/-- The inner `for partner, (qty, val1000) in sums.items()` loop for one
accumulator: add each entry of `entries` into the key
`(label, partner, year, flow)`. -/
def applySums (label : String) (year : Nat) (flow : String)
    (entries : List (String × ℚ)) (acc : Key → ℚ) : Key → ℚ :=
  entries.foldl
    (fun a e =>
      Function.update a ⟨label, e.1, year, flow⟩ (a ⟨label, e.1, year, flow⟩ + e.2))
    acc

/-- Per-spreadsheet sums: the partner dict from
`get_qty_and_value_sums_for_partners(sheet_df, PARTNERS)` with its
`"World"` entry overwritten by `get_rest_of_world_sum(sheet_df, EXCLUDE_FOR_ROW)`. -/
def sumsWithWorld (df : DataFrame) : Except PrepError (List (String × ℚ × ℚ)) :=
  match get_qty_and_value_sums_for_partners df PARTNERS with
  | Except.error e => Except.error e
  | Except.ok sums =>
    match get_rest_of_world_sum df EXCLUDE_FOR_ROW with
    | Except.error e => Except.error e
    | Except.ok row =>
      Except.ok (sums.map fun e => if e.1 = "World" then ("World", row.1, row.2) else e)

/-- One iteration of the main aggregation loop for sheet
`(label, code, year, flow, product)`: fold the sheet sums into both
accumulators. -/
def stepAcc (data : String → Nat → String → String → DataFrame)
    (label : String) (code : String) (year : Nat) (flow : String) (product : String)
    (acc : (Key → ℚ) × (Key → ℚ)) : Except PrepError ((Key → ℚ) × (Key → ℚ)) :=
  match sumsWithWorld (data code year flow product) with
  | Except.error e => Except.error e
  | Except.ok sums =>
    Except.ok
      (applySums label year flow (sums.map fun e => (e.1, e.2.1)) acc.1,
       applySums label year flow (sums.map fun e => (e.1, e.2.2)) acc.2)

/-- The loop nest order of the main aggregation:
reporters × years × flows × products. -/
def loopTuples : List (String × String × Nat × String × String) :=
  REPORTERS.flatMap fun rc =>
    YEARS.flatMap fun year =>
      FLOWS.flatMap fun flow =>
        PRODUCTS.map fun product => (rc.1, rc.2, year, flow, product)

/-- The whole main aggregation loop: both accumulators start at 0 on every
key and every sheet (obtained from the abstract fetch+parse oracle `data`)
is folded in; a missing-column sheet aborts the run. -/
def accumulate (data : String → Nat → String → String → DataFrame) :
    Except PrepError ((Key → ℚ) × (Key → ℚ)) :=
  loopTuples.foldlM
    (fun acc t => stepAcc data t.1 t.2.1 t.2.2.1 t.2.2.2.1 t.2.2.2.2 acc)
    (fun _ => (0 : ℚ), fun _ => (0 : ℚ))

/-! ### Output table -/

/-- One output row.  `tradeValueEUR = none` models the `float("nan")`
written when the year has no configured rate. -/
structure OutRow where
  reporter : String
  partner : String
  tradeflow : String
  year : Nat
  quantityKg : ℚ
  tradeValueUSD : ℚ
  tradeValueEUR : Option ℚ
deriving DecidableEq

/-- `trade_value_usd * eur_rate if eur_rate is not None else float("nan")`. -/
def mkEur (usd : ℚ) (year : Nat) : Option ℚ :=
  match USD_TO_EUR year with
  | some rate => some (usd * rate)
  | none => none

/-- The row emitted by Part (1) for one reporter label × partner × year
× flow. -/
def primaryRow (qacc vacc : Key → ℚ) (label partner : String)
    (year : Nat) (flow : String) : OutRow :=
  { reporter := label, partner := partner, tradeflow := flow_label flow,
    year := year,
    quantityKg := qacc ⟨label, partner, year, flow⟩,
    tradeValueUSD := vacc ⟨label, partner, year, flow⟩ * 1000,
    tradeValueEUR := mkEur (vacc ⟨label, partner, year, flow⟩ * 1000) year }

/-- Part (1): one primary row per reporter × partner × year × flow. -/
def primaryRows (qacc vacc : Key → ℚ) : List OutRow :=
  REPORTERS.flatMap fun rc =>
    PARTNERS.flatMap fun partner =>
      YEARS.flatMap fun year =>
        FLOWS.map fun flow => primaryRow qacc vacc rc.1 partner year flow

/-- The row emitted by Part (2) for a non-EU reporter, a year and a flow:
EU accumulator data at the inverse flow, relabelled. -/
def mirrorRow (qacc vacc : Key → ℚ) (label : String) (year : Nat) (flow : String) : OutRow :=
  { reporter := label, partner := REGION_LABEL_EU, tradeflow := flow_label flow,
    year := year,
    quantityKg := qacc ⟨REGION_LABEL_EU, label, year, inverse_flow flow⟩,
    tradeValueUSD := vacc ⟨REGION_LABEL_EU, label, year, inverse_flow flow⟩ * 1000,
    tradeValueEUR :=
      mkEur (vacc ⟨REGION_LABEL_EU, label, year, inverse_flow flow⟩ * 1000) year }

/-- Part (2): mirrored EU rows, skipping the EU reporter itself. -/
def mirroredRows (qacc vacc : Key → ℚ) : List OutRow :=
  REPORTERS.flatMap fun rc =>
    if rc.1 = REGION_LABEL_EU then []
    else
      YEARS.flatMap fun year =>
        FLOWS.map fun flow => mirrorRow qacc vacc rc.1 year flow

/-- The ascending multi-column comparison used by
`sort_values(["Reporter", "Partner", "Year", "Tradeflow"])`. -/
def rowLe (a b : OutRow) : Bool :=
  if a.reporter = b.reporter then
    if a.partner = b.partner then
      if a.year = b.year then !(decide (b.tradeflow.data < a.tradeflow.data))
      else decide (a.year < b.year)
    else decide (a.partner.data < b.partner.data)
  else decide (a.reporter.data < b.reporter.data)

/-- The output sort key, as a lexicographic tuple. -/
def keyL (r : OutRow) : Lex (String × Lex (String × Lex (Nat × String))) :=
  toLex (r.reporter, toLex (r.partner, toLex (r.year, r.tradeflow)))

/-- `out.loc[out["Partner"] == "World", "Partner"] = "Rest of World"`. -/
def renameWorld (r : OutRow) : OutRow :=
  if r.partner = "World" then { r with partner := "Rest of World" } else r

/-- Post-processing: drop self-pairs, rename "World" to "Rest of World",
sort by (Reporter, Partner, Year, Tradeflow) ascending. -/
def finalTable (qacc vacc : Key → ℚ) : List OutRow :=
  let t1 := (primaryRows qacc vacc ++ mirroredRows qacc vacc).filter
    fun r => !(r.reporter == r.partner)
  let t2 := t1.map renameWorld
  t2.mergeSort rowLe

/-! ### Heap model for the aggregation helpers

Pandas dataframes are mutable heap objects; to state that the two
aggregation helpers do not modify their input we re-run `_prep_kg_rows`
over an explicit store of dataframes.  `df.copy()` and the re-binding
`d = d[...]` allocate fresh objects; each pandas column assignment
mutates the object in place. -/

structure Store where
  next : Nat
  mem : Nat → DataFrame

/-- In-place mutation of the object behind `ref`. -/
def writeDf (s : Store) (ref : Nat) (df : DataFrame) : Store :=
  { s with mem := Function.update s.mem ref df }

/-- Allocation of a fresh object holding `df`. -/
def alloc (s : Store) (df : DataFrame) : Store × Nat :=
  ({ next := s.next + 1, mem := Function.update s.mem s.next df }, s.next)

/-- `_prep_kg_rows` on the heap: copy the input, mutate the copy's
columns, re-bind to a freshly allocated filtered frame, mutate its
numeric columns, return a reference to it. -/
def prep_kg_rows_st (s : Store) (dfRef : Nat) : Store × Except PrepError Nat :=
  let df := s.mem dfRef
  let missing := requiredColumns.filter fun c => !(df.columns.contains c)
  if missing.isEmpty then
    let p1 := alloc s df
    let s1 := p1.1
    let d := p1.2
    let s2 := writeDf s1 d
      { s1.mem d with rows := (s1.mem d).rows.map fun r => { r with partner := strTrim r.partner } }
    let s3 := writeDf s2 d
      { s2.mem d with
        rows := (s2.mem d).rows.map fun r => { r with quantityUnit := strTrim r.quantityUnit } }
    let p2 := alloc s3
      { columns := (s3.mem d).columns,
        rows := (s3.mem d).rows.filter fun r => strToLower r.quantityUnit == "kg" }
    let s4 := p2.1
    let d2 := p2.2
    let s5 := writeDf s4 d2
      { s4.mem d2 with
        rows := (s4.mem d2).rows.map fun r => { r with quantity := some (r.quantity.getD 0) } }
    let s6 := writeDf s5 d2
      { s5.mem d2 with
        rows := (s5.mem d2).rows.map fun r => { r with value1000 := some (r.value1000.getD 0) } }
    (s6, Except.ok d2)
  else (s, Except.error (PrepError.missingColumns missing df.columns))

/-- `get_qty_and_value_sums_for_partners` on the heap. -/
def get_sums_st (s : Store) (dfRef : Nat) (partners : List String) :
    Store × Except PrepError (List (String × ℚ × ℚ)) :=
  match prep_kg_rows_st s dfRef with
  | (s', Except.error e) => (s', Except.error e)
  | (s', Except.ok d) =>
    let g := (s'.mem d).rows.filter fun r => partners.contains r.partner
    (s', Except.ok (partners.map fun p =>
      if g.any fun r => r.partner == p then
        (p, ((g.filter fun r => r.partner == p).map fun r => r.quantity.getD 0).sum,
            ((g.filter fun r => r.partner == p).map fun r => r.value1000.getD 0).sum)
      else (p, (0 : ℚ), (0 : ℚ))))

/-- `get_rest_of_world_sum` on the heap. -/
def get_row_st (s : Store) (dfRef : Nat) (exclude_partners : List String) :
    Store × Except PrepError (ℚ × ℚ) :=
  match prep_kg_rows_st s dfRef with
  | (s', Except.error e) => (s', Except.error e)
  | (s', Except.ok d) =>
    let d2 := (s'.mem d).rows.filter fun r => !(exclude_partners.contains r.partner)
    (s', Except.ok ((d2.map fun r => r.quantity.getD 0).sum,
                    (d2.map fun r => r.value1000.getD 0).sum))

/-! ### Specification-side helper definitions (targets of the theorems) -/

/-- Sum of prepared quantities for one partner label. -/
def sumQty (rows : List PrepRow) (p : String) : ℚ :=
  ((rows.filter fun r => r.partner == p).map PrepRow.quantity).sum

/-- Sum of prepared 1000-USD values for one partner label. -/
def sumVal (rows : List PrepRow) (p : String) : ℚ :=
  ((rows.filter fun r => r.partner == p).map PrepRow.value1000).sum

/-- Rest-of-world quantity sum over prepared rows. -/
def rowQty (rows : List PrepRow) (ex : List String) : ℚ :=
  ((rows.filter fun r => !(ex.contains r.partner)).map PrepRow.quantity).sum

/-- Rest-of-world 1000-USD value sum over prepared rows. -/
def rowVal (rows : List PrepRow) (ex : List String) : ℚ :=
  ((rows.filter fun r => !(ex.contains r.partner)).map PrepRow.value1000).sum

/-- Sum of the quantity components of the dict entries with key `p`. -/
def entrySum (es : List (String × ℚ)) (p : String) : ℚ :=
  ((es.filter fun e => e.1 == p).map Prod.snd).sum

/-- The per-sheet sums dict (with the `"World"` override), defaulted to
the empty dict when the sheet is rejected. -/
def sheetSums (df : DataFrame) : List (String × ℚ × ℚ) :=
  match sumsWithWorld df with
  | Except.ok l => l
  | Except.error _ => []

/-- Quantity contribution of one sheet to the accumulator entry of
partner `p`. -/
def sheetContribQ (df : DataFrame) (p : String) : ℚ :=
  entrySum ((sheetSums df).map fun e => (e.1, e.2.1)) p

/-- 1000-USD value contribution of one sheet to the accumulator entry of
partner `p`. -/
def sheetContribV (df : DataFrame) (p : String) : ℚ :=
  entrySum ((sheetSums df).map fun e => (e.1, e.2.2)) p

/-- A dataframe with the rows whose quantity unit is not
(case-insensitively) "kg" removed. -/
def filterKg (df : DataFrame) : DataFrame :=
  { columns := df.columns, rows := df.rows.filter fun r => strToLower (strTrim r.quantityUnit) == "kg" }

/-- Row preparation as a single `filterMap`, used as a normal form in
proofs. -/
def prepRowFn (r : RawRow) : Option PrepRow :=
  if strToLower (strTrim r.quantityUnit) == "kg" then
    some ⟨strTrim r.partner, strTrim r.quantityUnit, r.quantity.getD 0, r.value1000.getD 0⟩
  else none

/-- The worked example of the specification: one sheet with a China row
(quantity 100, unit "Kg", value 50) and a Japan row (quantity 10, unit
"KG", value 5). -/
def exampleDf : DataFrame :=
  { columns := ["Partner", "Quantity", "Quantity Unit", "Trade Value 1000USD"],
    rows := [⟨"China", some 100, "Kg", some 50⟩, ⟨"Japan", some 10, "KG", some 5⟩] }

/-- The all-zero accumulator, used to instantiate theorems at a concrete
input. -/
def zeroAcc : Key → ℚ := fun _ => 0

/-- A one-object heap holding the worked example. -/
def exampleStore : Store :=
  { next := 1, mem := fun _ => exampleDf }

/-! ### Lemmas: row preparation -/

lemma prep_pipeline (rows : List RawRow) :
    ((((rows.map fun r => { r with partner := strTrim r.partner }).map
        fun r => { r with quantityUnit := strTrim r.quantityUnit }).filter
        fun r => strToLower r.quantityUnit == "kg").map fun r =>
      ({ partner := r.partner, quantityUnit := r.quantityUnit,
         quantity := r.quantity.getD 0, value1000 := r.value1000.getD 0 } : PrepRow)) =
    rows.filterMap prepRowFn := by
  induction rows with
  | nil => rfl
  | cons r rs ih =>
    simp only [List.map_map] at ih
    simp only [List.map_cons, List.filter_cons, List.filterMap_cons, prepRowFn, List.map_map]
    by_cases h : (strToLower (strTrim r.quantityUnit) == "kg") = true
    · simp [h, ih]
    · simp [h, ih]

lemma prep_ok (df : DataFrame) (hcols : ∀ c ∈ requiredColumns, c ∈ df.columns) :
    prep_kg_rows df = Except.ok (df.rows.filterMap prepRowFn) := by
  have h : (requiredColumns.filter fun c => !(df.columns.contains c)) = [] := by
    simp only [List.filter_eq_nil_iff, List.contains, List.elem_eq_mem]
    intro c hc
    simp [hcols c hc]
  simp only [prep_kg_rows, h, List.isEmpty_nil, if_true, prep_pipeline]

lemma prep_error (df : DataFrame) (hc : ∃ c ∈ requiredColumns, c ∉ df.columns) :
    prep_kg_rows df =
      Except.error (PrepError.missingColumns
        (requiredColumns.filter fun c => !(df.columns.contains c)) df.columns) := by
  have h : (requiredColumns.filter fun c => !(df.columns.contains c)).isEmpty = false := by
    obtain ⟨c, hc1, hc2⟩ := hc
    simp only [List.isEmpty_eq_false, ne_eq, List.filter_eq_nil_iff, not_forall]
    exact ⟨c, hc1, by simp [hc2]⟩
  simp only [prep_kg_rows, h, Bool.false_eq_true, if_false]

lemma prep_ok_inv (df : DataFrame) (rows : List PrepRow)
    (h : prep_kg_rows df = Except.ok rows) :
    rows = df.rows.filterMap prepRowFn ∧ ∀ c ∈ requiredColumns, c ∈ df.columns := by
  by_cases hcols : ∀ c ∈ requiredColumns, c ∈ df.columns
  · refine ⟨?_, hcols⟩
    have heq := prep_ok df hcols
    rw [heq] at h
    injection h with h2
    exact h2.symm
  · push_neg at hcols
    obtain ⟨c, hc1, hc2⟩ := hcols
    rw [prep_error df ⟨c, hc1, hc2⟩] at h
    cases h

/-! ### Lemmas: the two aggregation operations -/

lemma sums_for_partners_eq (df : DataFrame) (partners : List String) (rows : List PrepRow)
    (h : prep_kg_rows df = Except.ok rows) :
    get_qty_and_value_sums_for_partners df partners =
      Except.ok (partners.map fun p => (p, sumQty rows p, sumVal rows p)) := by
  simp only [get_qty_and_value_sums_for_partners, h]
  congr 1
  apply List.map_congr_left
  intro p hp
  have hfil : ((rows.filter fun r => partners.contains r.partner).filter
      fun r => r.partner == p) = rows.filter fun r => r.partner == p := by
    rw [List.filter_filter]
    apply List.filter_congr
    intro r _
    by_cases hrp : (r.partner == p) = true
    · have hrp2 : r.partner = p := by simpa using hrp
      simp [hrp, hrp2, List.contains, List.elem_eq_mem, hp]
    · simp [hrp]
  by_cases hany : ((rows.filter fun r => partners.contains r.partner).any
      fun r => r.partner == p) = true
  · simp only [hany, if_true, hfil, sumQty, sumVal]
  · have hnil : (rows.filter fun r => r.partner == p) = [] := by
      rw [List.filter_eq_nil_iff]
      intro r hr hbeq
      apply hany
      rw [List.any_eq_true]
      refine ⟨r, List.mem_filter.mpr ⟨hr, ?_⟩, hbeq⟩
      have hrp2 : r.partner = p := by simpa using hbeq
      simp [List.contains, List.elem_eq_mem, hrp2, hp]
    rw [Bool.not_eq_true] at hany
    simp only [hany, Bool.false_eq_true, if_false, sumQty, sumVal, hnil,
      List.map_nil, List.sum_nil]

lemma rest_of_world_eq (df : DataFrame) (ex : List String) (rows : List PrepRow)
    (h : prep_kg_rows df = Except.ok rows) :
    get_rest_of_world_sum df ex = Except.ok (rowQty rows ex, rowVal rows ex) := by
  simp only [get_rest_of_world_sum, h, rowQty, rowVal]

lemma sumsWithWorld_eq (df : DataFrame) (rows : List PrepRow)
    (h : prep_kg_rows df = Except.ok rows) :
    sumsWithWorld df = Except.ok (PARTNERS.map fun p =>
      if p = "World" then ("World", rowQty rows EXCLUDE_FOR_ROW, rowVal rows EXCLUDE_FOR_ROW)
      else (p, sumQty rows p, sumVal rows p)) := by
  simp only [sumsWithWorld, sums_for_partners_eq df PARTNERS rows h,
    rest_of_world_eq df EXCLUDE_FOR_ROW rows h, List.map_map]
  congr 1

lemma sheetSums_eq (df : DataFrame) (rows : List PrepRow)
    (h : prep_kg_rows df = Except.ok rows) :
    sheetSums df = PARTNERS.map fun p =>
      if p = "World" then ("World", rowQty rows EXCLUDE_FOR_ROW, rowVal rows EXCLUDE_FOR_ROW)
      else (p, sumQty rows p, sumVal rows p) := by
  simp only [sheetSums, sumsWithWorld_eq df rows h]

lemma entrySum_map_self (ps : List String) (w : String → ℚ) (hnd : ps.Nodup)
    (p : String) (hp : p ∈ ps) :
    entrySum (ps.map fun x => (x, w x)) p = w p := by
  induction ps with
  | nil => cases hp
  | cons a as ih =>
    rcases List.nodup_cons.mp hnd with ⟨ha, hnd2⟩
    rcases List.mem_cons.mp hp with h1 | h2
    · subst h1
      have hnil : ((as.map fun x => (x, w x)).filter fun e => e.1 == p) = [] := by
        rw [List.filter_eq_nil_iff]
        intro e he hbeq
        obtain ⟨x, hx, rfl⟩ := List.mem_map.mp he
        have hxp : x = p := by simpa using hbeq
        exact absurd (hxp ▸ hx) ha
      simp [entrySum, hnil]
    · have hne : (a == p) = false := by
        simp only [beq_eq_false_iff_ne, ne_eq]
        intro hap
        exact ha (hap ▸ h2)
      simp only [entrySum, List.map_cons, List.filter_cons, hne, Bool.false_eq_true, if_false]
      exact ih hnd2 h2

lemma sheetContrib_eq (df : DataFrame) (rows : List PrepRow)
    (h : prep_kg_rows df = Except.ok rows) (p : String) (hp : p ∈ PARTNERS) :
    sheetContribQ df p =
      (if p = "World" then rowQty rows EXCLUDE_FOR_ROW else sumQty rows p) ∧
    sheetContribV df p =
      (if p = "World" then rowVal rows EXCLUDE_FOR_ROW else sumVal rows p) := by
  have hs := sheetSums_eq df rows h
  have hnd : PARTNERS.Nodup := by decide
  constructor
  · simp only [sheetContribQ, hs, List.map_map]
    have hcomp : ((fun e : String × ℚ × ℚ => (e.1, e.2.1)) ∘ fun p =>
        if p = "World" then ("World", rowQty rows EXCLUDE_FOR_ROW, rowVal rows EXCLUDE_FOR_ROW)
        else (p, sumQty rows p, sumVal rows p)) = fun x =>
        (x, if x = "World" then rowQty rows EXCLUDE_FOR_ROW else sumQty rows x) := by
      funext x
      by_cases hx : x = "World" <;> simp [hx]
    rw [hcomp, entrySum_map_self PARTNERS _ hnd p hp]
  · simp only [sheetContribV, hs, List.map_map]
    have hcomp : ((fun e : String × ℚ × ℚ => (e.1, e.2.2)) ∘ fun p =>
        if p = "World" then ("World", rowQty rows EXCLUDE_FOR_ROW, rowVal rows EXCLUDE_FOR_ROW)
        else (p, sumQty rows p, sumVal rows p)) = fun x =>
        (x, if x = "World" then rowVal rows EXCLUDE_FOR_ROW else sumVal rows x) := by
      funext x
      by_cases hx : x = "World" <;> simp [hx]
    rw [hcomp, entrySum_map_self PARTNERS _ hnd p hp]

/-! ### Lemmas: the accumulator fold -/

lemma applySums_apply (label : String) (year : Nat) (flow : String)
    (entries : List (String × ℚ)) (acc : Key → ℚ) (k : Key) :
    applySums label year flow entries acc k =
      acc k + (if k.reporter = label ∧ k.year = year ∧ k.flow = flow
               then entrySum entries k.partner else 0) := by
  obtain ⟨kr, kp, ky, kf⟩ := k
  induction entries generalizing acc with
  | nil => simp [applySums, entrySum]
  | cons e es ih =>
    simp only [applySums, List.foldl_cons]
    have step := ih (Function.update acc ⟨label, e.1, year, flow⟩
      (acc ⟨label, e.1, year, flow⟩ + e.2))
    simp only [applySums] at step
    rw [step]
    by_cases hm : kr = label ∧ ky = year ∧ kf = flow
    · obtain ⟨h1, h2, h3⟩ := hm
      subst h1; subst h2; subst h3
      by_cases hp : kp = e.1
      · subst hp
        simp [Function.update_apply, entrySum, List.filter_cons, add_assoc]
      · have hne : (⟨kr, kp, ky, kf⟩ : Key) ≠ ⟨kr, e.1, ky, kf⟩ := by
          simp [Key.mk.injEq, hp]
        have hbne : (e.1 == kp) = false := by
          simp only [beq_eq_false_iff_ne, ne_eq]
          exact fun hx => hp hx.symm
        simp [Function.update_apply, hne, entrySum, List.filter_cons, hbne]
    · have hne : (⟨kr, kp, ky, kf⟩ : Key) ≠ ⟨label, e.1, year, flow⟩ := by
        intro hx
        apply hm
        injection hx with a b c d
        exact ⟨a, c, d⟩
      simp [Function.update_apply, hne, hm]

lemma foldlM_acc (data : String → Nat → String → String → DataFrame) :
    ∀ (L : List (String × String × Nat × String × String)) (q0 v0 qa va : Key → ℚ),
      L.foldlM (fun acc t => stepAcc data t.1 t.2.1 t.2.2.1 t.2.2.2.1 t.2.2.2.2 acc)
          (q0, v0) = Except.ok (qa, va) →
      ∀ k : Key,
        qa k = q0 k + (L.map fun t =>
          if k.reporter = t.1 ∧ k.year = t.2.2.1 ∧ k.flow = t.2.2.2.1
          then sheetContribQ (data t.2.1 t.2.2.1 t.2.2.2.1 t.2.2.2.2) k.partner else 0).sum ∧
        va k = v0 k + (L.map fun t =>
          if k.reporter = t.1 ∧ k.year = t.2.2.1 ∧ k.flow = t.2.2.2.1
          then sheetContribV (data t.2.1 t.2.2.1 t.2.2.2.1 t.2.2.2.2) k.partner else 0).sum := by
  intro L
  induction L with
  | nil =>
    intro q0 v0 qa va h k
    simp only [List.foldlM_nil] at h
    injection h with h2
    injection h2 with hq hv
    subst hq; subst hv
    simp
  | cons t ts ih =>
    intro q0 v0 qa va h k
    simp only [List.foldlM_cons] at h
    cases hsw : sumsWithWorld (data t.2.1 t.2.2.1 t.2.2.2.1 t.2.2.2.2) with
    | error e =>
      rw [show stepAcc data t.1 t.2.1 t.2.2.1 t.2.2.2.1 t.2.2.2.2 (q0, v0) =
          Except.error e by simp [stepAcc, hsw]] at h
      cases h
    | ok sums =>
      rw [show stepAcc data t.1 t.2.1 t.2.2.1 t.2.2.2.1 t.2.2.2.2 (q0, v0) =
          Except.ok (applySums t.1 t.2.2.1 t.2.2.2.1 (sums.map fun e => (e.1, e.2.1)) q0,
                     applySums t.1 t.2.2.1 t.2.2.2.1 (sums.map fun e => (e.1, e.2.2)) v0)
          by simp [stepAcc, hsw]] at h
      obtain ⟨ihq, ihv⟩ := ih _ _ _ _ h k
      have hsheet : sheetSums (data t.2.1 t.2.2.1 t.2.2.2.1 t.2.2.2.2) = sums := by
        simp [sheetSums, hsw]
      constructor
      · rw [ihq, applySums_apply]
        simp only [sheetContribQ, hsheet, List.map_cons, List.sum_cons, add_assoc]
      · rw [ihv, applySums_apply]
        simp only [sheetContribV, hsheet, List.map_cons, List.sum_cons, add_assoc]

lemma sum_map_flatMap {α β : Type} (l : List α) (f : α → List β) (g : β → ℚ) :
    ((l.flatMap f).map g).sum = (l.map fun a => ((f a).map g).sum).sum := by
  induction l with
  | nil => simp
  | cons a as ih => simp [List.flatMap_cons, ih]

lemma sum_ite_const {α : Type} (c : Prop) [Decidable c] (l : List α) (g : α → ℚ) :
    (l.map fun a => if c then g a else 0).sum = if c then (l.map g).sum else 0 := by
  by_cases hc : c <;> simp [hc]

lemma sum_if_of_nodup {α : Type} [DecidableEq α] (l : List α) (x : α) (g : α → ℚ)
    (hnd : l.Nodup) (hx : x ∈ l) :
    (l.map fun a => if x = a then g a else 0).sum = g x := by
  induction l with
  | nil => cases hx
  | cons a as ih =>
    rcases List.nodup_cons.mp hnd with ⟨ha, hnd2⟩
    rcases List.mem_cons.mp hx with h1 | h2
    · subst h1
      have hz : (as.map fun a => if x = a then g a else 0).sum = 0 := by
        apply List.sum_eq_zero
        intro q hq
        obtain ⟨a, ha2, rfl⟩ := List.mem_map.mp hq
        have hne : x ≠ a := fun hxa => ha (hxa ▸ ha2)
        simp [hne]
      simp [hz]
    · have hne : x ≠ a := fun hxa => ha (hxa ▸ h2)
      simp [hne, ih hnd2 h2]

lemma sum_if_fst_of_nodup {β : Type} (l : List (String × β)) (x : String) (b : β)
    (g : β → ℚ) (hnd : (l.map Prod.fst).Nodup) (hmem : (x, b) ∈ l) :
    (l.map fun e => if x = e.1 then g e.2 else 0).sum = g b := by
  induction l with
  | nil => cases hmem
  | cons e es ih =>
    simp only [List.map_cons, List.nodup_cons] at hnd
    obtain ⟨he, hnd2⟩ := hnd
    rcases List.mem_cons.mp hmem with h1 | h2
    · rw [show e = (x, b) from h1.symm]
      have hz : (es.map fun e => if x = e.1 then g e.2 else 0).sum = 0 := by
        apply List.sum_eq_zero
        intro q hq
        obtain ⟨e2, he2, rfl⟩ := List.mem_map.mp hq
        have hne : x ≠ e2.1 := by
          intro hxe
          apply h1.symm ▸ he
          rw [hxe]
          exact List.mem_map.mpr ⟨e2, he2, rfl⟩
        simp [hne]
      simp [hz]
    · have hne : x ≠ e.1 := by
        intro hxe
        apply he
        rw [← hxe]
        exact List.mem_map.mpr ⟨(x, b), h2, rfl⟩
      simp only [List.map_cons, List.sum_cons, hne, if_false, zero_add]
      exact ih hnd2 h2

lemma loop_sum (k : Key) (code : String) (C : String → Nat → String → String → ℚ)
    (h1 : (k.reporter, code) ∈ REPORTERS) (h3 : k.year ∈ YEARS) (h4 : k.flow ∈ FLOWS) :
    (loopTuples.map fun t =>
      if k.reporter = t.1 ∧ k.year = t.2.2.1 ∧ k.flow = t.2.2.2.1
      then C t.2.1 t.2.2.1 t.2.2.2.1 t.2.2.2.2 else 0).sum =
    (PRODUCTS.map fun product => C code k.year k.flow product).sum := by
  have hflow : ∀ v : String → ℚ,
      (FLOWS.map fun f => if k.flow = f then v f else 0).sum = v k.flow :=
    fun v => sum_if_of_nodup FLOWS k.flow v (by decide) h4
  have hyear : ∀ v : Nat → ℚ,
      (YEARS.map fun y => if k.year = y then v y else 0).sum = v k.year :=
    fun v => sum_if_of_nodup YEARS k.year v (by decide) h3
  have hrep : ∀ v : String → ℚ,
      (REPORTERS.map fun rc => if k.reporter = rc.1 then v rc.2 else 0).sum = v code :=
    fun v => sum_if_fst_of_nodup REPORTERS k.reporter code v (by decide) h1
  simp only [loopTuples, sum_map_flatMap, List.map_map, Function.comp_def]
  simp only [ite_and, sum_ite_const, hflow, hyear]
  exact hrep fun c => (PRODUCTS.map (C c k.year k.flow)).sum

lemma stepAcc_ok (data : String → Nat → String → String → DataFrame)
    (label code : String) (year : Nat) (flow : String) (product : String)
    (acc : (Key → ℚ) × (Key → ℚ)) (rows : List PrepRow)
    (h : prep_kg_rows (data code year flow product) = Except.ok rows) :
    ∃ res, stepAcc data label code year flow product acc = Except.ok res := by
  cases hsw : sumsWithWorld (data code year flow product) with
  | error e =>
    rw [sumsWithWorld_eq _ rows h] at hsw
    cases hsw
  | ok sums =>
    exact ⟨(applySums label year flow (sums.map fun e => (e.1, e.2.1)) acc.1,
            applySums label year flow (sums.map fun e => (e.1, e.2.2)) acc.2),
      by simp only [stepAcc, hsw]⟩

lemma foldlM_ok (data : String → Nat → String → String → DataFrame)
    (hok : ∀ c y f p, ∃ rows, prep_kg_rows (data c y f p) = Except.ok rows) :
    ∀ (L : List (String × String × Nat × String × String)) (acc : (Key → ℚ) × (Key → ℚ)),
      ∃ res, L.foldlM (fun acc t => stepAcc data t.1 t.2.1 t.2.2.1 t.2.2.2.1 t.2.2.2.2 acc)
        acc = Except.ok res := by
  intro L
  induction L with
  | nil => exact fun acc => ⟨acc, rfl⟩
  | cons t ts ih =>
    intro acc
    obtain ⟨rows, hrows⟩ := hok t.2.1 t.2.2.1 t.2.2.2.1 t.2.2.2.2
    obtain ⟨s1, hs1⟩ := stepAcc_ok data t.1 t.2.1 t.2.2.1 t.2.2.2.1 t.2.2.2.2 acc rows hrows
    obtain ⟨res, hres⟩ := ih s1
    refine ⟨res, ?_⟩
    rw [List.foldlM_cons, hs1]
    exact hres

/-! ### Claim theorems (first batch) -/

/-- C2: the rest-of-world operation returns the pair of sums of quantity
and 1000-USD value over exactly the prepared rows whose partner is not in
the exclusion set, with no grouping; on the worked example with exclusion
set containing China it returns (10, 5). -/
theorem claim_C2 :
    (∀ (df : DataFrame) (ex : List String) (rows : List PrepRow),
      prep_kg_rows df = Except.ok rows →
      get_rest_of_world_sum df ex = Except.ok
        (((rows.filter fun r => !(ex.contains r.partner)).map PrepRow.quantity).sum,
         ((rows.filter fun r => !(ex.contains r.partner)).map PrepRow.value1000).sum)) ∧
    get_rest_of_world_sum exampleDf ["China"] = Except.ok (10, 5) := by
  constructor
  · intro df ex rows h
    simpa [rowQty, rowVal] using rest_of_world_eq df ex rows h
  · have h : prep_kg_rows exampleDf =
        Except.ok [⟨"China", "Kg", 100, 50⟩, ⟨"Japan", "KG", 10, 5⟩] := rfl
    simp [get_rest_of_world_sum, h]

/-- C3: sum-for-partners returns a mapping defined on exactly the partner
list, each listed partner mapping to the per-partner quantity/value sums
over the prepared rows, with (0, 0) for partners without any row; on the
worked example with partner list [China] it returns China ↦ (100, 50). -/
theorem claim_C3 :
    (∀ (df : DataFrame) (partners : List String) (rows : List PrepRow)
        (m : List (String × ℚ × ℚ)),
      prep_kg_rows df = Except.ok rows →
      get_qty_and_value_sums_for_partners df partners = Except.ok m →
      m.map Prod.fst = partners ∧
      (∀ p q v, (p, q, v) ∈ m → q = sumQty rows p ∧ v = sumVal rows p) ∧
      (∀ p ∈ partners, (∀ r ∈ rows, r.partner ≠ p) → (p, (0 : ℚ), (0 : ℚ)) ∈ m)) ∧
    get_qty_and_value_sums_for_partners exampleDf ["China"] =
      Except.ok [("China", 100, 50)] := by
  constructor
  · intro df partners rows m hprep hm
    rw [sums_for_partners_eq df partners rows hprep] at hm
    injection hm with hm
    subst hm
    refine ⟨?_, ?_, ?_⟩
    · simp [List.map_map, Function.comp_def]
    · intro p q v hpm
      obtain ⟨p2, hp2, heq⟩ := List.mem_map.mp hpm
      rw [Prod.mk.injEq] at heq
      obtain ⟨h1, h2⟩ := heq
      rw [Prod.mk.injEq] at h2
      obtain ⟨h2a, h2b⟩ := h2
      subst h1
      exact ⟨h2a.symm, h2b.symm⟩
    · intro p hp hnone
      have hq : sumQty rows p = 0 := by
        have : (rows.filter fun r => r.partner == p) = [] := by
          rw [List.filter_eq_nil_iff]
          intro r hr hbeq
          exact hnone r hr (by simpa using hbeq)
        simp [sumQty, this]
      have hv : sumVal rows p = 0 := by
        have : (rows.filter fun r => r.partner == p) = [] := by
          rw [List.filter_eq_nil_iff]
          intro r hr hbeq
          exact hnone r hr (by simpa using hbeq)
        simp [sumVal, this]
      exact List.mem_map.mpr ⟨p, hp, by rw [hq, hv]⟩
  · have h : prep_kg_rows exampleDf =
        Except.ok [⟨"China", "Kg", 100, 50⟩, ⟨"Japan", "KG", 10, 5⟩] := rfl
    simp [get_qty_and_value_sums_for_partners, h]

/-- C6: when any of the four required columns is absent both aggregation
operations fail immediately with an error naming exactly the missing
columns and the columns actually found; when all four are present neither
operation raises this error. -/
theorem claim_C6 : ∀ (df : DataFrame) (partners ex : List String),
    ((∃ c ∈ requiredColumns, c ∉ df.columns) →
      ∃ missing, missing ≠ [] ∧
        (∀ c, c ∈ missing ↔ c ∈ requiredColumns ∧ c ∉ df.columns) ∧
        get_qty_and_value_sums_for_partners df partners =
          Except.error (PrepError.missingColumns missing df.columns) ∧
        get_rest_of_world_sum df ex =
          Except.error (PrepError.missingColumns missing df.columns)) ∧
    ((∀ c ∈ requiredColumns, c ∈ df.columns) →
      (∃ m, get_qty_and_value_sums_for_partners df partners = Except.ok m) ∧
      (∃ pr, get_rest_of_world_sum df ex = Except.ok pr)) := by
  intro df partners ex
  constructor
  · intro hc
    refine ⟨requiredColumns.filter fun c => !(df.columns.contains c), ?_, ?_, ?_, ?_⟩
    · obtain ⟨c, hc1, hc2⟩ := hc
      intro hnil
      rw [List.filter_eq_nil_iff] at hnil
      exact hnil c hc1 (by simp [List.contains, List.elem_eq_mem, hc2])
    · intro c
      simp [List.mem_filter, List.contains, List.elem_eq_mem]
    · simp only [get_qty_and_value_sums_for_partners, prep_error df hc]
    · simp only [get_rest_of_world_sum, prep_error df hc]
  · intro hcols
    constructor
    · exact ⟨_, sums_for_partners_eq df partners _ (prep_ok df hcols)⟩
    · exact ⟨_, rest_of_world_eq df ex _ (prep_ok df hcols)⟩

/-- C5: assuming every sheet passes row preparation, the run succeeds and,
for every configured key (reporter, partner, year, flow), the final
accumulator entries equal the sum over the nine configured products of
that product's per-sheet contribution for the key, starting from the zero
initialization; the per-sheet contribution is the per-partner sum for a
base partner and the rest-of-world sum for the "World" key. -/
theorem claim_C5 (data : String → Nat → String → String → DataFrame)
    (hok : ∀ c y f p, ∃ rows, prep_kg_rows (data c y f p) = Except.ok rows)
    (label code partner : String) (year : Nat) (flow : String)
    (hrc : (label, code) ∈ REPORTERS) (hp : partner ∈ PARTNERS)
    (hy : year ∈ YEARS) (hf : flow ∈ FLOWS) :
    (∃ qacc vacc, accumulate data = Except.ok (qacc, vacc) ∧
      qacc ⟨label, partner, year, flow⟩ =
        (PRODUCTS.map fun product => sheetContribQ (data code year flow product) partner).sum ∧
      vacc ⟨label, partner, year, flow⟩ =
        (PRODUCTS.map fun product => sheetContribV (data code year flow product) partner).sum) ∧
    ∀ (df : DataFrame) (rows : List PrepRow), prep_kg_rows df = Except.ok rows →
      ∀ p ∈ PARTNERS,
        sheetContribQ df p =
          (if p = "World" then rowQty rows EXCLUDE_FOR_ROW else sumQty rows p) ∧
        sheetContribV df p =
          (if p = "World" then rowVal rows EXCLUDE_FOR_ROW else sumVal rows p) := by
  constructor
  · obtain ⟨⟨qacc, vacc⟩, hacc⟩ := foldlM_ok data hok loopTuples
      (fun _ => (0 : ℚ), fun _ => (0 : ℚ))
    refine ⟨qacc, vacc, hacc, ?_⟩
    obtain ⟨hq, hv⟩ := foldlM_acc data loopTuples _ _ qacc vacc hacc
      ⟨label, partner, year, flow⟩
    have hlsq := loop_sum ⟨label, partner, year, flow⟩ code
      (fun c y f p => sheetContribQ (data c y f p) partner) hrc hy hf
    have hlsv := loop_sum ⟨label, partner, year, flow⟩ code
      (fun c y f p => sheetContribV (data c y f p) partner) hrc hy hf
    dsimp only at hq hv hlsq hlsv
    constructor
    · rw [hq, zero_add, hlsq]
    · rw [hv, zero_add, hlsv]
  · intro df rows h p hp2
    exact sheetContrib_eq df rows h p hp2

/-! ### Lemmas: dropping non-kg rows changes nothing (C4) -/

lemma filterMap_prep_filter (rows : List RawRow) :
    (rows.filter fun r => strToLower (strTrim r.quantityUnit) == "kg").filterMap prepRowFn
      = rows.filterMap prepRowFn := by
  induction rows with
  | nil => rfl
  | cons r rs ih =>
    by_cases h : (strToLower (strTrim r.quantityUnit) == "kg") = true
    · simp only [List.filter_cons, h, if_true, List.filterMap_cons, ih]
    · have hfn : prepRowFn r = none := by
        simp only [prepRowFn, h, Bool.false_eq_true, if_false]
      simp only [List.filter_cons, h, Bool.false_eq_true, if_false,
        List.filterMap_cons, hfn, ih]

lemma prep_filterKg (df : DataFrame) :
    prep_kg_rows (filterKg df) = prep_kg_rows df := by
  by_cases hcols : ∀ c ∈ requiredColumns, c ∈ df.columns
  · rw [prep_ok df hcols, prep_ok (filterKg df) hcols]
    simp only [filterKg, filterMap_prep_filter]
  · push_neg at hcols
    obtain ⟨c, hc1, hc2⟩ := hcols
    rw [prep_error df ⟨c, hc1, hc2⟩, prep_error (filterKg df) ⟨c, hc1, hc2⟩]
    rfl

lemma get_sums_filterKg (df : DataFrame) (partners : List String) :
    get_qty_and_value_sums_for_partners (filterKg df) partners =
      get_qty_and_value_sums_for_partners df partners := by
  simp only [get_qty_and_value_sums_for_partners, prep_filterKg]

lemma get_row_filterKg (df : DataFrame) (ex : List String) :
    get_rest_of_world_sum (filterKg df) ex = get_rest_of_world_sum df ex := by
  simp only [get_rest_of_world_sum, prep_filterKg]

lemma sumsWithWorld_filterKg (df : DataFrame) :
    sumsWithWorld (filterKg df) = sumsWithWorld df := by
  simp only [sumsWithWorld, get_sums_filterKg, get_row_filterKg]

lemma accumulate_filterKg (data : String → Nat → String → String → DataFrame) :
    accumulate (fun c y f p => filterKg (data c y f p)) = accumulate data := by
  simp only [accumulate]
  congr 1
  funext acc t
  simp only [stepAcc, sumsWithWorld_filterKg]

lemma prep_rows_kg (df : DataFrame) (rows : List PrepRow)
    (h : prep_kg_rows df = Except.ok rows) :
    ∀ r ∈ rows, strToLower r.quantityUnit = "kg" := by
  obtain ⟨hrows, -⟩ := prep_ok_inv df rows h
  subst hrows
  intro r hr
  obtain ⟨r0, hr0, hfn⟩ := List.mem_filterMap.mp hr
  by_cases hc : (strToLower (strTrim r0.quantityUnit) == "kg") = true
  · simp only [prepRowFn, hc, if_true, Option.some.injEq] at hfn
    rw [← hfn]
    exact eq_of_beq hc
  · simp only [prepRowFn, hc, Bool.false_eq_true, if_false] at hfn
    cases hfn

/-- C4: a row whose quantity-unit is not case-insensitively "kg"
contributes to no sum: removing all such rows changes neither aggregation
operation nor the whole accumulator run, and every row that survives
preparation has a unit whose lower-casing is "kg". -/
theorem claim_C4 : ∀ (df : DataFrame) (partners ex : List String)
    (data : String → Nat → String → String → DataFrame),
    get_qty_and_value_sums_for_partners (filterKg df) partners =
      get_qty_and_value_sums_for_partners df partners ∧
    get_rest_of_world_sum (filterKg df) ex = get_rest_of_world_sum df ex ∧
    accumulate (fun c y f p => filterKg (data c y f p)) = accumulate data ∧
    ∀ rows, prep_kg_rows df = Except.ok rows →
      ∀ r ∈ rows, strToLower r.quantityUnit = "kg" :=
  fun df partners ex data =>
    ⟨get_sums_filterKg df partners, get_row_filterKg df ex, accumulate_filterKg data,
     fun rows h => prep_rows_kg df rows h⟩

/-! ### Lemmas: output rows -/

lemma mem_mirroredRows (qacc vacc : Key → ℚ) (label code : String)
    (year : Nat) (flow : String) (hrc : (label, code) ∈ REPORTERS)
    (hne : label ≠ REGION_LABEL_EU) (hy : year ∈ YEARS) (hf : flow ∈ FLOWS) :
    mirrorRow qacc vacc label year flow ∈ mirroredRows qacc vacc := by
  unfold mirroredRows
  refine List.mem_flatMap.mpr ⟨(label, code), hrc, ?_⟩
  rw [if_neg hne]
  exact List.mem_flatMap.mpr ⟨year, hy, List.mem_map.mpr ⟨flow, hf, rfl⟩⟩

lemma mirroredRows_inv (qacc vacc : Key → ℚ) (row : OutRow)
    (h : row ∈ mirroredRows qacc vacc) :
    ∃ label year flow, label ≠ REGION_LABEL_EU ∧ year ∈ YEARS ∧ flow ∈ FLOWS ∧
      row = mirrorRow qacc vacc label year flow := by
  unfold mirroredRows at h
  obtain ⟨rc, hrc, hin⟩ := List.mem_flatMap.mp h
  by_cases heu : rc.1 = REGION_LABEL_EU
  · rw [if_pos heu] at hin
    cases hin
  · rw [if_neg heu] at hin
    obtain ⟨year, hy, hin2⟩ := List.mem_flatMap.mp hin
    obtain ⟨flow, hf, heq⟩ := List.mem_map.mp hin2
    exact ⟨rc.1, year, flow, heu, hy, hf, heq.symm⟩

/-- C1: for every non-EU reporter, year and flow, the mirrored row is in
the Part (2) output and carries Reporter = that reporter, Partner =
"European Union", the non-inverted flow label, and the EU reporter's
accumulated quantity and (1000-USD × 1000) value at the inverse flow;
and no mirrored row is emitted with the EU as its reporter. -/
theorem claim_C1 (qacc vacc : Key → ℚ) :
    (∀ label code year flow, (label, code) ∈ REPORTERS → label ≠ REGION_LABEL_EU →
      year ∈ YEARS → flow ∈ FLOWS →
      mirrorRow qacc vacc label year flow ∈ mirroredRows qacc vacc ∧
      (mirrorRow qacc vacc label year flow).reporter = label ∧
      (mirrorRow qacc vacc label year flow).partner = REGION_LABEL_EU ∧
      (mirrorRow qacc vacc label year flow).tradeflow = flow_label flow ∧
      (mirrorRow qacc vacc label year flow).quantityKg =
        qacc ⟨REGION_LABEL_EU, label, year, inverse_flow flow⟩ ∧
      (mirrorRow qacc vacc label year flow).tradeValueUSD =
        vacc ⟨REGION_LABEL_EU, label, year, inverse_flow flow⟩ * 1000) ∧
    ∀ row ∈ mirroredRows qacc vacc,
      row.reporter ≠ REGION_LABEL_EU ∧ row.partner = REGION_LABEL_EU := by
  constructor
  · intro label code year flow hrc hne hy hf
    exact ⟨mem_mirroredRows qacc vacc label code year flow hrc hne hy hf,
      rfl, rfl, rfl, rfl, rfl⟩
  · intro row hrow
    obtain ⟨label, year, flow, hne, hy, hf, heq⟩ := mirroredRows_inv qacc vacc row hrow
    subst heq
    exact ⟨hne, rfl⟩

lemma rows_shape (qacc vacc : Key → ℚ) :
    ∀ row ∈ primaryRows qacc vacc ++ mirroredRows qacc vacc,
      row.year ∈ YEARS ∧
      row.tradeValueEUR = mkEur row.tradeValueUSD row.year ∧
      row.reporter ∈ REPORTERS.map Prod.fst ∧
      ∃ v1000, row.tradeValueUSD = v1000 * 1000 := by
  intro row hrow
  rcases List.mem_append.mp hrow with h | h
  · unfold primaryRows at h
    obtain ⟨rc, hrc, h1⟩ := List.mem_flatMap.mp h
    obtain ⟨partner, hp, h2⟩ := List.mem_flatMap.mp h1
    obtain ⟨year, hy, h3⟩ := List.mem_flatMap.mp h2
    obtain ⟨flow, hf, heq⟩ := List.mem_map.mp h3
    subst heq
    exact ⟨hy, rfl, List.mem_map.mpr ⟨rc, hrc, rfl⟩, _, rfl⟩
  · obtain ⟨label, year, flow, hne, hy, hf, heq⟩ := mirroredRows_inv qacc vacc row h
    subst heq
    have hlab : label ∈ REPORTERS.map Prod.fst := by
      unfold mirroredRows at h
      obtain ⟨rc, hrc, hin⟩ := List.mem_flatMap.mp h
      by_cases heu : rc.1 = REGION_LABEL_EU
      · rw [if_pos heu] at hin
        cases hin
      · rw [if_neg heu] at hin
        obtain ⟨year2, hy2, hin2⟩ := List.mem_flatMap.mp hin
        obtain ⟨flow2, hf2, heq2⟩ := List.mem_map.mp hin2
        have : label = rc.1 := (congrArg OutRow.reporter heq2).symm
        exact this ▸ List.mem_map.mpr ⟨rc, hrc, rfl⟩
    exact ⟨hy, rfl, hlab, _, rfl⟩

/-- C7: every primary or mirrored output row computes its EUR field from
its USD field via the local rate lookup `mkEur`, whose missing-rate branch
recovers with the not-a-number marker: for an arbitrary year without a
rate — 2019 is one — the Part (1) and Part (2) row constructors still
build a row (not fatal) whose EUR field is the NaN marker while the USD
field is the 1000-USD accumulator value times 1000, and for a year with a
rate `mkEur` yields USD times that rate. -/
theorem claim_C7 (qacc vacc : Key → ℚ) :
    (∀ row ∈ primaryRows qacc vacc ++ mirroredRows qacc vacc,
      row.tradeValueEUR = mkEur row.tradeValueUSD row.year ∧
      ∃ v1000, row.tradeValueUSD = v1000 * 1000) ∧
    (∀ (usd : ℚ) (year : Nat), USD_TO_EUR year = none → mkEur usd year = none) ∧
    (∀ (usd : ℚ) (year : Nat) (rate : ℚ), USD_TO_EUR year = some rate →
      mkEur usd year = some (usd * rate)) ∧
    USD_TO_EUR 2019 = none ∧
    (∀ (label partner : String) (year : Nat) (flow : String), USD_TO_EUR year = none →
      (primaryRow qacc vacc label partner year flow).tradeValueEUR = none ∧
      (primaryRow qacc vacc label partner year flow).tradeValueUSD =
        vacc ⟨label, partner, year, flow⟩ * 1000) ∧
    (∀ (label : String) (year : Nat) (flow : String), USD_TO_EUR year = none →
      (mirrorRow qacc vacc label year flow).tradeValueEUR = none ∧
      (mirrorRow qacc vacc label year flow).tradeValueUSD =
        vacc ⟨REGION_LABEL_EU, label, year, inverse_flow flow⟩ * 1000) := by
  refine ⟨?_, ?_, ?_, rfl, ?_, ?_⟩
  · intro row hrow
    obtain ⟨-, heur, -, husd⟩ := rows_shape qacc vacc row hrow
    exact ⟨heur, husd⟩
  · intro usd year hnone
    rw [mkEur, hnone]
  · intro usd year rate hrate
    rw [mkEur, hrate]
  · intro label partner year flow hnone
    refine ⟨?_, rfl⟩
    show mkEur (vacc ⟨label, partner, year, flow⟩ * 1000) year = none
    rw [mkEur, hnone]
  · intro label year flow hnone
    refine ⟨?_, rfl⟩
    show mkEur (vacc ⟨REGION_LABEL_EU, label, year, inverse_flow flow⟩ * 1000) year = none
    rw [mkEur, hnone]

/-! ### Lemmas: sort order -/

lemma strLt_iff (s t : String) : s.data < t.data ↔ s < t :=
  (@String.lt_iff_toList_lt s t).symm

lemma strLe_iff (s t : String) : ¬ t.data < s.data ↔ s ≤ t := by
  rw [strLt_iff]
  exact not_lt

lemma rowLe_iff (a b : OutRow) : rowLe a b = true ↔ keyL a ≤ keyL b := by
  unfold rowLe keyL
  rw [Prod.Lex.le_iff]
  by_cases h1 : a.reporter = b.reporter
  · rw [if_pos h1, Prod.Lex.le_iff]
    have hlt1 : ¬ a.reporter < b.reporter := by rw [h1]; exact lt_irrefl _
    by_cases h2 : a.partner = b.partner
    · rw [if_pos h2, Prod.Lex.le_iff]
      have hlt2 : ¬ a.partner < b.partner := by rw [h2]; exact lt_irrefl _
      by_cases h3 : a.year = b.year
      · rw [if_pos h3]
        have hlt3 : ¬ a.year < b.year := by rw [h3]; exact lt_irrefl _
        simp only [hlt1, hlt2, hlt3, h1, h2, h3, false_or, true_and, false_and,
          or_false, eq_self_iff_true, lt_self_iff_false]
        rw [Bool.not_eq_true', decide_eq_false_iff_not, strLe_iff]
      · rw [if_neg h3]
        simp only [hlt1, hlt2, h1, h2, h3, false_or, true_and, false_and,
          or_false, eq_self_iff_true, and_false, decide_eq_true_eq, lt_self_iff_false]
    · rw [if_neg h2]
      simp only [hlt1, h1, h2, false_or, true_and, false_and, or_false,
        eq_self_iff_true, and_false, decide_eq_true_eq, strLt_iff, lt_self_iff_false]
  · rw [if_neg h1]
    simp only [h1, false_and, or_false, decide_eq_true_eq, strLt_iff]

lemma rowLe_trans (a b c : OutRow) (h1 : rowLe a b) (h2 : rowLe b c) : rowLe a c := by
  rw [rowLe_iff] at *
  exact le_trans h1 h2

lemma rowLe_total (a b : OutRow) : rowLe a b || rowLe b a := by
  rcases le_total (keyL a) (keyL b) with h | h
  · simp [Bool.or_eq_true, rowLe_iff, h]
  · simp [Bool.or_eq_true, rowLe_iff, h]

/-- C8: after dropping self-pairs and renaming "World" to "Rest of World",
the final table is sorted: every adjacent pair of rows is ordered by the
ascending lexicographic (Reporter, Partner, Year, Tradeflow) comparison,
and every row of the sorted table indeed has Reporter ≠ Partner and no
remaining "World" partner. -/
theorem claim_C8 (qacc vacc : Key → ℚ) :
    List.Chain' (fun a b => rowLe a b = true) (finalTable qacc vacc) ∧
    (∀ a b : OutRow, rowLe a b = true ↔ keyL a ≤ keyL b) ∧
    ∀ row ∈ finalTable qacc vacc,
      row.reporter ≠ row.partner ∧ row.partner ≠ "World" := by
  refine ⟨?_, rowLe_iff, ?_⟩
  · simp only [finalTable]
    exact (List.sorted_mergeSort rowLe_trans rowLe_total _).chain'
  · intro row hrow
    simp only [finalTable] at hrow
    rw [List.mem_mergeSort] at hrow
    obtain ⟨pre, hpre, hrw⟩ := List.mem_map.mp hrow
    obtain ⟨hmem, hcond⟩ := List.mem_filter.mp hpre
    have hrep : pre.reporter ∈ REPORTERS.map Prod.fst :=
      (rows_shape qacc vacc pre hmem).2.2.1
    have hner : pre.reporter ≠ pre.partner := by simpa using hcond
    subst hrw
    by_cases hw : pre.partner = "World"
    · have h2 : renameWorld pre = { pre with partner := "Rest of World" } := by
        simp [renameWorld, hw]
      rw [h2]
      constructor
      · intro heq
        have heq2 : pre.reporter = "Rest of World" := heq
        rw [heq2] at hrep
        exact absurd hrep (by decide)
      · intro heq
        exact absurd (show ("Rest of World" : String) = "World" from heq) (by decide)
    · constructor
      · simpa [renameWorld, hw] using hner
      · simpa [renameWorld, hw] using hw

/-- C9: under the compiled-in configuration every configured year has a
conversion rate, and consequently every row of the final table carries a
non-NaN EUR value equal to its USD value times its year's rate. -/
theorem claim_C9 :
    (∀ year ∈ YEARS, ∃ rate, USD_TO_EUR year = some rate) ∧
    ∀ (qacc vacc : Key → ℚ), ∀ row ∈ finalTable qacc vacc,
      ∃ rate, USD_TO_EUR row.year = some rate ∧
        row.tradeValueEUR = some (row.tradeValueUSD * rate) := by
  constructor
  · intro year hy
    simp only [YEARS, List.mem_cons, List.not_mem_nil, or_false] at hy
    rcases hy with h | h | h | h | h <;> rw [h] <;> exact ⟨_, rfl⟩
  · intro qacc vacc row hrow
    simp only [finalTable] at hrow
    rw [List.mem_mergeSort] at hrow
    obtain ⟨pre, hpre, hrw⟩ := List.mem_map.mp hrow
    obtain ⟨hmem, -⟩ := List.mem_filter.mp hpre
    obtain ⟨hy, heur, -, -⟩ := rows_shape qacc vacc pre hmem
    subst hrw
    have hfields : (renameWorld pre).year = pre.year ∧
        (renameWorld pre).tradeValueUSD = pre.tradeValueUSD ∧
        (renameWorld pre).tradeValueEUR = pre.tradeValueEUR := by
      by_cases hw : pre.partner = "World" <;> simp [renameWorld, hw]
    obtain ⟨hf1, hf2, hf3⟩ := hfields
    rw [hf1, hf2, hf3, heur]
    simp only [YEARS, List.mem_cons, List.not_mem_nil, or_false] at hy
    rcases hy with h | h | h | h | h <;> rw [h] <;> exact ⟨_, rfl, rfl⟩

/-! ### Lemmas: the heap model (C10) -/

lemma prep_st_err (s : Store) (dfRef : Nat)
    (hc : ∃ c ∈ requiredColumns, c ∉ (s.mem dfRef).columns) :
    prep_kg_rows_st s dfRef = (s, Except.error (PrepError.missingColumns
      (requiredColumns.filter fun c => !((s.mem dfRef).columns.contains c))
      (s.mem dfRef).columns)) := by
  have h : (requiredColumns.filter fun c => !((s.mem dfRef).columns.contains c)).isEmpty
      = false := by
    obtain ⟨c, hc1, hc2⟩ := hc
    simp only [List.isEmpty_eq_false, ne_eq, List.filter_eq_nil_iff, not_forall]
    exact ⟨c, hc1, by simp [List.contains, List.elem_eq_mem, hc2]⟩
  simp only [prep_kg_rows_st, h, Bool.false_eq_true, if_false]

lemma prep_st_ok (s : Store) (dfRef : Nat) (h : dfRef < s.next)
    (hcols : ∀ c ∈ requiredColumns, c ∈ (s.mem dfRef).columns) :
    ∃ s2 : Store, prep_kg_rows_st s dfRef = (s2, Except.ok (s.next + 1)) ∧
      s2.mem dfRef = s.mem dfRef ∧
      (s2.mem (s.next + 1)).rows =
        (((((s.mem dfRef).rows.map fun r => { r with partner := strTrim r.partner }).map
            fun r => { r with quantityUnit := strTrim r.quantityUnit }).filter
            fun r => strToLower r.quantityUnit == "kg").map
            fun r => { r with quantity := some (r.quantity.getD 0) }).map
            fun r => { r with value1000 := some (r.value1000.getD 0) } := by
  have hmiss : (requiredColumns.filter fun c => !((s.mem dfRef).columns.contains c)) = [] := by
    simp only [List.filter_eq_nil_iff, List.contains, List.elem_eq_mem]
    intro c hc
    simp [hcols c hc]
  have hA : ¬ (s.next + 1 = s.next) := by omega
  have hB : ¬ (dfRef = s.next) := by omega
  have hC : ¬ (dfRef = s.next + 1) := by omega
  refine ⟨(prep_kg_rows_st s dfRef).1, ?_, ?_, ?_⟩
  · simp only [prep_kg_rows_st, hmiss, List.isEmpty_nil, if_true, alloc, writeDf]
  · simp only [prep_kg_rows_st, hmiss, List.isEmpty_nil, if_true, alloc, writeDf,
      Function.update_apply, hA, hB, hC, if_false]
  · simp only [prep_kg_rows_st, hmiss, List.isEmpty_nil, if_true, alloc, writeDf,
      Function.update_apply, hA, hB, hC, if_false, if_pos rfl]

lemma any_map_general {α β : Type} (f : α → β) (l : List α) (p : β → Bool) :
    (l.map f).any p = l.any fun a => p (f a) := by
  induction l with
  | nil => rfl
  | cons x xs ih => simp [ih]

lemma get_sums_st_eq (s : Store) (dfRef : Nat) (partners : List String)
    (h : dfRef < s.next) :
    (get_sums_st s dfRef partners).1.mem dfRef = s.mem dfRef ∧
    (get_sums_st s dfRef partners).2 =
      get_qty_and_value_sums_for_partners (s.mem dfRef) partners := by
  by_cases hcols : ∀ c ∈ requiredColumns, c ∈ (s.mem dfRef).columns
  · obtain ⟨s2, hst, hmem, hrows⟩ := prep_st_ok s dfRef h hcols
    have hpure := prep_ok (s.mem dfRef) hcols
    rw [← prep_pipeline] at hpure
    constructor
    · simp only [get_sums_st, hst, hmem]
    · simp only [get_sums_st, hst, get_qty_and_value_sums_for_partners, hpure, hrows]
      congr 1
      apply List.map_congr_left
      intro p hp
      simp only [List.map_map, List.filter_map, List.any_map, Function.comp_def,
        Option.getD_some, List.filter_filter, Bool.and_assoc, Bool.and_comm,
        Bool.and_left_comm]
      rw [any_map_general]
  · push_neg at hcols
    obtain ⟨c, hc1, hc2⟩ := hcols
    have hst := prep_st_err s dfRef ⟨c, hc1, hc2⟩
    have hpure := prep_error (s.mem dfRef) ⟨c, hc1, hc2⟩
    constructor
    · simp only [get_sums_st, hst]
    · simp only [get_sums_st, hst, get_qty_and_value_sums_for_partners, hpure]

lemma get_row_st_eq (s : Store) (dfRef : Nat) (ex : List String)
    (h : dfRef < s.next) :
    (get_row_st s dfRef ex).1.mem dfRef = s.mem dfRef ∧
    (get_row_st s dfRef ex).2 = get_rest_of_world_sum (s.mem dfRef) ex := by
  by_cases hcols : ∀ c ∈ requiredColumns, c ∈ (s.mem dfRef).columns
  · obtain ⟨s2, hst, hmem, hrows⟩ := prep_st_ok s dfRef h hcols
    have hpure := prep_ok (s.mem dfRef) hcols
    rw [← prep_pipeline] at hpure
    constructor
    · simp only [get_row_st, hst, hmem]
    · simp only [get_row_st, hst, get_rest_of_world_sum, hpure, hrows]
      simp only [List.map_map, List.filter_map, Function.comp_def,
        Option.getD_some, List.filter_filter, Bool.and_assoc, Bool.and_comm,
        Bool.and_left_comm]
  · push_neg at hcols
    obtain ⟨c, hc1, hc2⟩ := hcols
    have hst := prep_st_err s dfRef ⟨c, hc1, hc2⟩
    have hpure := prep_error (s.mem dfRef) ⟨c, hc1, hc2⟩
    constructor
    · simp only [get_row_st, hst]
    · simp only [get_row_st, hst, get_rest_of_world_sum, hpure]

/-- C10: both aggregation helpers leave the caller's dataframe unchanged
on the heap (row preparation works on freshly allocated copies) and
return exactly the result of the pure versions of the operations. -/
theorem claim_C10 : ∀ (s : Store) (dfRef : Nat) (partners ex : List String),
    dfRef < s.next →
    ((get_sums_st s dfRef partners).1.mem dfRef = s.mem dfRef ∧
     (get_sums_st s dfRef partners).2 =
       get_qty_and_value_sums_for_partners (s.mem dfRef) partners) ∧
    ((get_row_st s dfRef ex).1.mem dfRef = s.mem dfRef ∧
     (get_row_st s dfRef ex).2 = get_rest_of_world_sum (s.mem dfRef) ex) :=
  fun s dfRef partners ex h => ⟨get_sums_st_eq s dfRef partners h, get_row_st_eq s dfRef ex h⟩

/-! ### Witnesses -/

theorem claim_C1_witness :
    mirrorRow zeroAcc zeroAcc "China" 2020 "I" ∈ mirroredRows zeroAcc zeroAcc :=
  ((claim_C1 zeroAcc zeroAcc).1 "China" "CHN" 2020 "I"
    (by decide) (by decide) (by decide) (by decide)).1

theorem claim_C2_witness :
    get_rest_of_world_sum exampleDf ["Japan"] = Except.ok (100, 50) := by
  have h := claim_C2.1 exampleDf ["Japan"]
    [⟨"China", "Kg", 100, 50⟩, ⟨"Japan", "KG", 10, 5⟩] rfl
  simpa using h

theorem claim_C3_witness :
    (100 : ℚ) = sumQty [⟨"China", "Kg", 100, 50⟩, ⟨"Japan", "KG", 10, 5⟩] "China" ∧
    (50 : ℚ) = sumVal [⟨"China", "Kg", 100, 50⟩, ⟨"Japan", "KG", 10, 5⟩] "China" := by
  have h := claim_C3.1 exampleDf ["China"]
    [⟨"China", "Kg", 100, 50⟩, ⟨"Japan", "KG", 10, 5⟩] [("China", 100, 50)] rfl
    (by
      have hprep : prep_kg_rows exampleDf =
          Except.ok [⟨"China", "Kg", 100, 50⟩, ⟨"Japan", "KG", 10, 5⟩] := rfl
      simp [get_qty_and_value_sums_for_partners, hprep])
  exact h.2.1 "China" 100 50 (List.mem_cons_self _ _)

theorem claim_C4_witness :
    strToLower (⟨"China", "Kg", (100 : ℚ), 50⟩ : PrepRow).quantityUnit = "kg" :=
  (claim_C4 exampleDf [] [] fun _ _ _ _ => exampleDf).2.2.2
    [⟨"China", "Kg", 100, 50⟩, ⟨"Japan", "KG", 10, 5⟩] rfl
    ⟨"China", "Kg", 100, 50⟩ (List.mem_cons_self _ _)

theorem claim_C5_witness :
    ∃ qacc vacc, accumulate (fun _ _ _ _ => exampleDf) = Except.ok (qacc, vacc) ∧
      qacc ⟨"China", "World", 2020, "I"⟩ =
        (PRODUCTS.map fun _ => sheetContribQ exampleDf "World").sum ∧
      vacc ⟨"China", "World", 2020, "I"⟩ =
        (PRODUCTS.map fun _ => sheetContribV exampleDf "World").sum :=
  (claim_C5 (fun _ _ _ _ => exampleDf)
    (fun _ _ _ _ => ⟨[⟨"China", "Kg", 100, 50⟩, ⟨"Japan", "KG", 10, 5⟩], rfl⟩)
    "China" "CHN" "World" 2020 "I" (by decide) (by decide) (by decide) (by decide)).1

theorem claim_C6_witness :
    (∃ missing, missing ≠ [] ∧
      (∀ c, c ∈ missing ↔ c ∈ requiredColumns ∧ c ∉ (DataFrame.mk ["Quantity"] []).columns) ∧
      get_qty_and_value_sums_for_partners (DataFrame.mk ["Quantity"] []) [] =
        Except.error (PrepError.missingColumns missing (DataFrame.mk ["Quantity"] []).columns) ∧
      get_rest_of_world_sum (DataFrame.mk ["Quantity"] []) [] =
        Except.error (PrepError.missingColumns missing (DataFrame.mk ["Quantity"] []).columns)) ∧
    ((∃ m, get_qty_and_value_sums_for_partners exampleDf [] = Except.ok m) ∧
     (∃ pr, get_rest_of_world_sum exampleDf [] = Except.ok pr)) :=
  ⟨(claim_C6 (DataFrame.mk ["Quantity"] []) [] []).1 ⟨"Partner", by decide, by decide⟩,
   (claim_C6 exampleDf [] []).2 (by decide)⟩

theorem claim_C7_witness :
    mkEur 5 2019 = none ∧
    ((primaryRow zeroAcc zeroAcc "China" "Japan" 2019 "E").tradeValueEUR = none ∧
     (primaryRow zeroAcc zeroAcc "China" "Japan" 2019 "E").tradeValueUSD =
       zeroAcc ⟨"China", "Japan", 2019, "E"⟩ * 1000) ∧
    ((mirrorRow zeroAcc zeroAcc "China" 2019 "I").tradeValueEUR = none ∧
     (mirrorRow zeroAcc zeroAcc "China" 2019 "I").tradeValueUSD =
       zeroAcc ⟨REGION_LABEL_EU, "China", 2019, inverse_flow "I"⟩ * 1000) ∧
    mkEur 5 2020 = some (5 * (877/1000)) :=
  ⟨(claim_C7 zeroAcc zeroAcc).2.1 5 2019 rfl,
   (claim_C7 zeroAcc zeroAcc).2.2.2.2.1 "China" "Japan" 2019 "E" rfl,
   (claim_C7 zeroAcc zeroAcc).2.2.2.2.2 "China" 2019 "I" rfl,
   (claim_C7 zeroAcc zeroAcc).2.2.1 5 2020 (877/1000) rfl⟩

theorem claim_C8_witness :
    (renameWorld (mirrorRow zeroAcc zeroAcc "China" 2020 "I")).reporter ≠
      (renameWorld (mirrorRow zeroAcc zeroAcc "China" 2020 "I")).partner ∧
    (renameWorld (mirrorRow zeroAcc zeroAcc "China" 2020 "I")).partner ≠ "World" :=
  (claim_C8 zeroAcc zeroAcc).2.2 _ (by
    simp only [finalTable]
    exact List.mem_mergeSort.mpr (List.mem_map.mpr ⟨_, List.mem_filter.mpr
      ⟨List.mem_append_right _ (mem_mirroredRows zeroAcc zeroAcc "China" "CHN" 2020 "I"
        (by decide) (by decide) (by decide) (by decide)), by decide⟩, rfl⟩))

theorem claim_C9_witness :
    (∃ rate, USD_TO_EUR 2020 = some rate) ∧
    (∃ rate, USD_TO_EUR (renameWorld (mirrorRow zeroAcc zeroAcc "China" 2021 "E")).year
        = some rate ∧
      (renameWorld (mirrorRow zeroAcc zeroAcc "China" 2021 "E")).tradeValueEUR =
        some ((renameWorld (mirrorRow zeroAcc zeroAcc "China" 2021 "E")).tradeValueUSD
          * rate)) :=
  ⟨claim_C9.1 2020 (by decide),
   claim_C9.2 zeroAcc zeroAcc _ (by
     simp only [finalTable]
     exact List.mem_mergeSort.mpr (List.mem_map.mpr ⟨_, List.mem_filter.mpr
       ⟨List.mem_append_right _ (mem_mirroredRows zeroAcc zeroAcc "China" "CHN" 2021 "E"
         (by decide) (by decide) (by decide) (by decide)), by decide⟩, rfl⟩))⟩

theorem claim_C10_witness :
    ((get_sums_st exampleStore 0 ["China"]).1.mem 0 = exampleStore.mem 0 ∧
     (get_sums_st exampleStore 0 ["China"]).2 =
       get_qty_and_value_sums_for_partners (exampleStore.mem 0) ["China"]) ∧
    ((get_row_st exampleStore 0 ["China"]).1.mem 0 = exampleStore.mem 0 ∧
     (get_row_st exampleStore 0 ["China"]).2 =
       get_rest_of_world_sum (exampleStore.mem 0) ["China"]) :=
  claim_C10 exampleStore 0 ["China"] ["China"] (by decide)

end WITS
